import Mathlib

/-!
Verification development for the Tendly dashboard data pipeline (`src/Home.py`).

The dashboard loads a table of tender records, filters it by a cost range and
two categorical equality filters, partitions the filtered `estimated_cost`
column into logarithmically spaced buckets with `pd.cut`, and renders summary
statistics and a top-10 category ranking.

Modelling conventions:
* a pandas DataFrame row becomes a `TenderRecord`, the table a `List TenderRecord`;
* the float-valued `estimated_cost` column is modelled with exact rationals `ℚ`,
  and the logarithmic bucket-edge computation (`np.log10`, `np.linspace`, `10 **`)
  with exact real arithmetic over `ℝ`;
* `pd.cut(..., bins, labels, include_lowest=True)` (default `right=True`,
  `ordered=True`, `duplicates='raise'`) is modelled by `pdCut`, including the
  `ValueError`s pandas raises for non-monotone bins, duplicate bins and
  duplicate labels;
* a missing / NaN value in a categorical column is `Option.none`; the NaN that
  `Series.mean()` / `Series.median()` return on an empty series is modelled by
  `Option.none` on the result side;
* Python's `f"{x:.0f}"` / `f"{x:.1f}"` round-half-to-even formatting is
  modelled by `rndHE` on exact reals.
-/

/-- One row of the `estonian_tender_details` table, restricted to the columns the
dashboard's transformation pipeline touches (the remaining columns behave like
`tender_name`: they are carried through untouched). -/
structure TenderRecord where
  procurement_id : ℕ
  tender_name : String
  estimated_cost : ℚ
  procedure_type_code : Option String
  procurement_sector_code : Option String
  primary_cpv_name : Option String
  submission_deadline : Option ℤ
deriving DecidableEq, Repr

/-- `Series.min()`: fold of `min` over the column (`0` stands for the NaN pandas
returns on an empty series; all claims concern non-empty tables). -/
def listMin : List ℚ → ℚ
  | [] => 0
  | x :: xs => xs.foldl min x

/-- `Series.max()`, analogously to `listMin`. -/
def listMax : List ℚ → ℚ
  | [] => 0
  | x :: xs => xs.foldl max x

/-- The `estimated_cost` column of a table. -/
def estimatedCosts (df : List TenderRecord) : List ℚ :=
  df.map (·.estimated_cost)

/-- `df['estimated_cost'].min()` in `create_cost_buckets`. -/
def minCost (df : List TenderRecord) : ℚ :=
  listMin (estimatedCosts df)

/-- `df['estimated_cost'].max()` in `create_cost_buckets`. -/
def maxCost (df : List TenderRecord) : ℚ :=
  listMax (estimatedCosts df)

/-- Round half to even, the rounding used by Python's `format` on floats. -/
noncomputable def rndHE (x : ℝ) : ℤ :=
  if x - ⌊x⌋ < 1 / 2 then ⌊x⌋
  else if 1 / 2 < x - ⌊x⌋ then ⌊x⌋ + 1
  else if 2 ∣ ⌊x⌋ then ⌊x⌋ else ⌊x⌋ + 1

/-- Python's `f"{x:.1f}"` for non-negative `x`: one digit after the decimal point. -/
noncomputable def oneDecStr (x : ℝ) : String :=
  toString (rndHE (x * 10) / 10) ++ "." ++ toString (rndHE (x * 10) % 10)

/-- The magnitude-adaptive formatting of one bucket edge
(`Home.py` lines 95-100, repeated verbatim for the other edge in lines 102-107). -/
noncomputable def fmtEdge (x : ℝ) : String :=
  if x < 1000 then "€" ++ toString (rndHE x)
  else if x < 1000000 then "€" ++ toString (rndHE (x / 1000)) ++ "K"
  else "€" ++ oneDecStr (x / 1000000) ++ "M"

/-- The Total Value metric formatting (`Home.py` lines 177-184). -/
noncomputable def fmtTotalValue (v : ℝ) : String :=
  if 1000000000 ≤ v then "€" ++ oneDecStr (v / 1000000000) ++ "B"
  else if 1000000 ≤ v then "€" ++ oneDecStr (v / 1000000) ++ "M"
  else if 1000 ≤ v then "€" ++ oneDecStr (v / 1000) ++ "K"
  else "€" ++ toString (rndHE v)

/-- The Average Cost metric formatting (`Home.py` lines 189-194). -/
noncomputable def fmtAvgCost (v : ℝ) : String :=
  if 1000000 ≤ v then "€" ++ oneDecStr (v / 1000000) ++ "M"
  else if 1000 ≤ v then "€" ++ oneDecStr (v / 1000) ++ "K"
  else "€" ++ toString (rndHE v)

/-- The Median Cost metric formatting (`Home.py` lines 199-204; the source
duplicates the Average Cost branch structure verbatim). -/
noncomputable def fmtMedianCost (v : ℝ) : String :=
  if 1000000 ≤ v then "€" ++ oneDecStr (v / 1000000) ++ "M"
  else if 1000 ≤ v then "€" ++ oneDecStr (v / 1000) ++ "K"
  else "€" ++ toString (rndHE v)

/-- `np.linspace a b num` in exact arithmetic: `num` evenly spaced samples whose
first element is `a` and (for `num ≥ 2`) whose last element is exactly `b`. -/
noncomputable def linspace (a b : ℝ) (num : ℕ) : List ℝ :=
  (List.range num).map fun i : ℕ => a + (b - a) * (i : ℝ) / ((num - 1 : ℕ) : ℝ)

/-- Interval search of `pd.cut` (with `right=True`): first index `i` with
`edges[i] < c ≤ edges[i+1]`. -/
noncomputable def cutIdAux : List ℝ → ℝ → ℕ → Option ℕ
  | e1 :: e2 :: rest, c, i =>
    if e1 < c ∧ c ≤ e2 then some i else cutIdAux (e2 :: rest) c (i + 1)
  | _, _, _ => none

/-- Bucket index assigned by `pd.cut(..., right=True, include_lowest=True)`:
intervals `(edges[i], edges[i+1]]`, a value equal to `edges[0]` is put in
bucket `0` (`include_lowest`), values outside the overall range get NaN
(`none`). -/
noncomputable def cutId (edges : List ℝ) (c : ℝ) : Option ℕ :=
  match edges with
  | e0 :: _ :: _ => if c = e0 then some 0 else cutIdAux edges c 0
  | _ => none

/-- The `ValueError`s `pd.cut` can raise for the arguments used in `Home.py`. -/
inductive CutError where
  | binsMustIncrease
  | binEdgesNotUnique
  | labelsNotUnique
deriving DecidableEq, Repr

/-- `pd.cut(xs, bins=edges, labels=labels, include_lowest=True)` with the pandas
defaults `right=True`, `ordered=True`, `duplicates='raise'`:
1. raises if the bins decrease somewhere (`np.diff(bins) < 0`);
2. raises if the bins contain duplicates (unless there are exactly 2 bins);
3. raises if the labels contain duplicates (`ordered=True`);
4. otherwise assigns each value its bucket via interval search. -/
noncomputable def pdCut (xs edges : List ℝ) (labels : List String) :
    Except CutError (List (Option ℕ)) :=
  if ¬ List.Chain' (· ≤ ·) edges then .error .binsMustIncrease
  else if ¬ edges.Nodup ∧ edges.length ≠ 2 then .error .binEdgesNotUnique
  else if ¬ labels.Nodup then .error .labelsNotUnique
  else .ok (xs.map (cutId edges))

/-- `log_min = np.log10(min_cost)` in `create_cost_buckets`. -/
noncomputable def log_min (df : List TenderRecord) : ℝ :=
  Real.logb 10 ((minCost df : ℚ) : ℝ)

/-- `log_max = np.log10(max_cost)` in `create_cost_buckets`. -/
noncomputable def log_max (df : List TenderRecord) : ℝ :=
  Real.logb 10 ((maxCost df : ℚ) : ℝ)

/-- The bucket edges of `create_cost_buckets`: `num_buckets + 1` points evenly
spaced on a base-10 logarithmic scale between the min and max cost, mapped back
through `10 ** ·`. -/
noncomputable def bucketEdges (df : List TenderRecord) (num_buckets : ℕ) : List ℝ :=
  (linspace (log_min df) (log_max df) (num_buckets + 1)).map fun x => (10 : ℝ) ^ x

/-- The bucket labels of `create_cost_buckets`: one label per consecutive pair
of edges, formatted with `fmtEdge`. -/
noncomputable def bucketLabels (df : List TenderRecord) (num_buckets : ℕ) : List String :=
  ((bucketEdges df num_buckets).zip (bucketEdges df num_buckets).tail).map
    fun p => fmtEdge p.1 ++ " - " ++ fmtEdge p.2

/-- `create_cost_buckets(df, num_buckets)` (`Home.py` lines 77-114): computes the
log-spaced edges and the labels and assigns each row its bucket with `pd.cut`,
adding the assignment as the `cost_bucket` column (here: pairing each row with
its optional bucket index). A `ValueError` from `pd.cut` propagates. -/
noncomputable def create_cost_buckets (df : List TenderRecord) (num_buckets : ℕ) :
    Except CutError (List (TenderRecord × Option ℕ) × List ℝ × List String) :=
  match pdCut ((estimatedCosts df).map fun q : ℚ => (q : ℝ))
      (bucketEdges df num_buckets) (bucketLabels df num_buckets) with
  | .error e => .error e
  | .ok ids => .ok (df.zip ids, bucketEdges df num_buckets, bucketLabels df num_buckets)

/-- The cost-range filter (`Home.py` lines 154-157): keep rows with
`min_cost <= estimated_cost <= max_cost`, both ends inclusive. -/
def costRangeFilter (min_cost max_cost : ℚ) (df : List TenderRecord) : List TenderRecord :=
  df.filter fun r => decide (min_cost ≤ r.estimated_cost ∧ r.estimated_cost ≤ max_cost)

/-- The sector filter (`Home.py` lines 159-160): `none` models the `'All'`
sentinel (no filtering); a NaN cell never equals a selected value in pandas,
matching `Option.some`-equality here. -/
def sectorFilter (selected : Option String) (df : List TenderRecord) : List TenderRecord :=
  match selected with
  | none => df
  | some s => df.filter fun r => decide (r.procurement_sector_code = some s)

/-- The procedure-type filter (`Home.py` lines 162-163), analogous to `sectorFilter`. -/
def procedureFilter (selected : Option String) (df : List TenderRecord) : List TenderRecord :=
  match selected with
  | none => df
  | some p => df.filter fun r => decide (r.procedure_type_code = some p)

/-- The sequential filter application of `main` (`Home.py` lines 154-163). -/
def applyFilters (df : List TenderRecord) (min_cost max_cost : ℚ)
    (selected_sector selected_procedure : Option String) : List TenderRecord :=
  procedureFilter selected_procedure
    (sectorFilter selected_sector (costRangeFilter min_cost max_cost df))

/-- `Series.sum()`: `0` on an empty series. -/
def seriesSum (l : List ℚ) : ℚ := l.sum

/-- `Series.mean()`: NaN (modelled as `none`) on an empty series. -/
def seriesMean (l : List ℚ) : Option ℚ :=
  if l.isEmpty then none else some (l.sum / l.length)

/-- `Series.median()`: NaN (`none`) on an empty series, otherwise the middle
element of the sorted series, averaging the two middle elements for even length. -/
def seriesMedian (l : List ℚ) : Option ℚ :=
  if l.isEmpty then none
  else
    let s := l.mergeSort fun a b => decide (a ≤ b)
    let k := l.length
    if k % 2 = 1 then some (s.getD (k / 2) 0)
    else some ((s.getD (k / 2 - 1) 0 + s.getD (k / 2) 0) / 2)

/-- Rendering of the Average Cost metric value: a NaN mean (empty series) fails
both `>=` comparisons in the source and is formatted by `f"€{avg_cost:.0f}"`
as the literal string `€nan`. -/
noncomputable def fmtAvgCostOf (v : Option ℚ) : String :=
  match v with
  | some q => fmtAvgCost (q : ℝ)
  | none => "€nan"

/-- Rendering of the Median Cost metric value, analogous to `fmtAvgCostOf`. -/
noncomputable def fmtMedianCostOf (v : Option ℚ) : String :=
  match v with
  | some q => fmtMedianCost (q : ℝ)
  | none => "€nan"

/-- What `main` produces from the filtered table in `Home.py` lines 166-211:
the optional bucketing result (only attempted on a non-empty table), the four
summary metrics, whether the no-data warning is shown, and whether execution
continues past the early `return` to the charts. -/
structure RenderOutput where
  bucketed : Option (Except CutError (List (TenderRecord × Option ℕ) × List ℝ × List String))
  totalTenders : ℕ
  totalValueStr : String
  avgCostStr : String
  medianCostStr : String
  noDataWarning : Bool
  chartsRendered : Bool

/-- The post-filter part of `main` (`Home.py` lines 166-211). -/
noncomputable def renderMain (filtered_df : List TenderRecord) : RenderOutput where
  bucketed :=
    if 0 < filtered_df.length then some (create_cost_buckets filtered_df 50) else none
  totalTenders := filtered_df.length
  totalValueStr := fmtTotalValue ((seriesSum (estimatedCosts filtered_df) : ℚ) : ℝ)
  avgCostStr := fmtAvgCostOf (seriesMean (estimatedCosts filtered_df))
  medianCostStr := fmtMedianCostOf (seriesMedian (estimatedCosts filtered_df))
  noDataWarning := decide (filtered_df.length = 0)
  chartsRendered := decide (0 < filtered_df.length)

/-- The top-10 category ranking (`Home.py` lines 291-292):
`groupby('primary_cpv_name')` with the pandas defaults `sort=True` (group keys
ascending) and `dropna=True` (rows with a NaN key are excluded), aggregated to
(sum, count) of `estimated_cost`, then `sort_values('sum', ascending=False)`
and `head(10)`. `sort_values` defaults to quicksort, whose order on equal sums
is unspecified; the model fixes a stable sort, and no theorem below depends on
the order of tied groups. -/
def topCategories (df : List TenderRecord) : List (String × ℚ × ℕ) :=
  let keys := ((df.filterMap (·.primary_cpv_name)).dedup).mergeSort fun a b => decide (a ≤ b)
  let grouped := keys.map fun k =>
    let rows := df.filter fun r => decide (r.primary_cpv_name = some k)
    (k, seriesSum (estimatedCosts rows), rows.length)
  (grouped.mergeSort fun a b => decide (b.2.1 ≤ a.2.1)).take 10

/-- The per-bucket tally behind `value_counts()` on the `cost_bucket` column:
how many rows were assigned bucket index `i`. -/
def assignmentCounts (out : List (TenderRecord × Option ℕ)) (i : ℕ) : ℕ :=
  (out.map (·.2)).count (some i)

/-- A concrete row with only the cost set (all categorical fields NaN). -/
def sampleRow (i : ℕ) (c : ℚ) : TenderRecord :=
  { procurement_id := i, tender_name := "t", estimated_cost := c,
    procedure_type_code := none, procurement_sector_code := none,
    primary_cpv_name := none, submission_deadline := none }

/-- A concrete row with a cost, a sector and a CPV category. -/
def sampleRowCat (i : ℕ) (c : ℚ) (sector cpv : Option String) : TenderRecord :=
  { procurement_id := i, tender_name := "t", estimated_cost := c,
    procedure_type_code := none, procurement_sector_code := sector,
    primary_cpv_name := cpv, submission_deadline := none }

/-- The spec's own scenario table: four rows with costs 100, 1000, 10000, 100000. -/
def t4 : List TenderRecord :=
  [sampleRow 1 100, sampleRow 2 1000, sampleRow 3 10000, sampleRow 4 100000]

/-- A table in which every row carries the identical cost 5000. -/
def tEq : List TenderRecord := [sampleRow 1 5000, sampleRow 2 5000]

/-- The two rows surviving the spec's cost-range-filter scenario: costs 1000 and 10000. -/
def tScen : List TenderRecord := [sampleRow 1 1000, sampleRow 2 10000]

/-- A one-row table whose single row has a null `primary_cpv_name`. -/
def tNull : List TenderRecord := [sampleRowCat 1 500 none none]

/-- A table with two CPV categories ("A" twice, "B" once) and one
null-category row. -/
def tCat : List TenderRecord :=
  [sampleRowCat 1 300 (some "S1") (some "A"), sampleRowCat 2 200 none (some "A"),
    sampleRowCat 3 100 none (some "B"), sampleRowCat 4 50 none none]

/-! ### Basic facts about `listMin` / `listMax` -/

theorem foldl_min_spec (xs : List ℚ) (x : ℚ) :
    xs.foldl min x ≤ x ∧ (∀ a ∈ xs, xs.foldl min x ≤ a) ∧
      (xs.foldl min x = x ∨ xs.foldl min x ∈ xs) := by
  induction xs generalizing x with
  | nil => exact ⟨le_rfl, by simp, Or.inl rfl⟩
  | cons y ys ih =>
    obtain ⟨h1, h2, h3⟩ := ih (min x y)
    refine ⟨h1.trans (min_le_left _ _), ?_, ?_⟩
    · intro a ha
      rcases List.mem_cons.mp ha with rfl | ha
      · exact h1.trans (min_le_right _ _)
      · exact h2 a ha
    · rcases h3 with h3 | h3
      · rcases min_choice x y with hc | hc
        · exact Or.inl (h3.trans hc)
        · exact Or.inr (by rw [List.foldl_cons, h3, hc]; exact List.mem_cons_self _ _)
      · exact Or.inr (List.mem_cons_of_mem _ h3)

theorem foldl_max_spec (xs : List ℚ) (x : ℚ) :
    x ≤ xs.foldl max x ∧ (∀ a ∈ xs, a ≤ xs.foldl max x) ∧
      (xs.foldl max x = x ∨ xs.foldl max x ∈ xs) := by
  induction xs generalizing x with
  | nil => exact ⟨le_rfl, by simp, Or.inl rfl⟩
  | cons y ys ih =>
    obtain ⟨h1, h2, h3⟩ := ih (max x y)
    refine ⟨(le_max_left _ _).trans h1, ?_, ?_⟩
    · intro a ha
      rcases List.mem_cons.mp ha with rfl | ha
      · exact (le_max_right _ _).trans h1
      · exact h2 a ha
    · rcases h3 with h3 | h3
      · rcases max_choice x y with hc | hc
        · exact Or.inl (h3.trans hc)
        · exact Or.inr (by rw [List.foldl_cons, h3, hc]; exact List.mem_cons_self _ _)
      · exact Or.inr (List.mem_cons_of_mem _ h3)

theorem listMin_le_of_mem {l : List ℚ} {a : ℚ} (h : a ∈ l) : listMin l ≤ a := by
  cases l with
  | nil => cases h
  | cons x xs =>
    rcases List.mem_cons.mp h with rfl | h
    · exact (foldl_min_spec xs a).1
    · exact (foldl_min_spec xs x).2.1 a h

theorem le_listMax_of_mem {l : List ℚ} {a : ℚ} (h : a ∈ l) : a ≤ listMax l := by
  cases l with
  | nil => cases h
  | cons x xs =>
    rcases List.mem_cons.mp h with rfl | h
    · exact (foldl_max_spec xs a).1
    · exact (foldl_max_spec xs x).2.1 a h

theorem listMin_mem {l : List ℚ} (h : l ≠ []) : listMin l ∈ l := by
  cases l with
  | nil => exact absurd rfl h
  | cons x xs =>
    rcases (foldl_min_spec xs x).2.2 with h3 | h3
    · rw [listMin, h3]; exact List.mem_cons_self _ _
    · exact List.mem_cons_of_mem _ h3

theorem listMax_mem {l : List ℚ} (h : l ≠ []) : listMax l ∈ l := by
  cases l with
  | nil => exact absurd rfl h
  | cons x xs =>
    rcases (foldl_max_spec xs x).2.2 with h3 | h3
    · rw [listMax, h3]; exact List.mem_cons_self _ _
    · exact List.mem_cons_of_mem _ h3

theorem estimatedCosts_ne_nil {df : List TenderRecord} (h : df ≠ []) :
    estimatedCosts df ≠ [] := by
  cases df with
  | nil => exact absurd rfl h
  | cons r rs => simp [estimatedCosts]

theorem minCost_le_cost {df : List TenderRecord} {r : TenderRecord} (h : r ∈ df) :
    minCost df ≤ r.estimated_cost :=
  listMin_le_of_mem (List.mem_map_of_mem _ h)

theorem cost_le_maxCost {df : List TenderRecord} {r : TenderRecord} (h : r ∈ df) :
    r.estimated_cost ≤ maxCost df :=
  le_listMax_of_mem (List.mem_map_of_mem _ h)

theorem minCost_pos {df : List TenderRecord} (hne : df ≠ [])
    (hpos : ∀ r ∈ df, 0 < r.estimated_cost) : 0 < minCost df := by
  have hmem := listMin_mem (estimatedCosts_ne_nil hne)
  obtain ⟨r, hr, hq⟩ := List.mem_map.mp hmem
  rw [minCost, ← hq]
  exact hpos r hr

theorem minCost_le_maxCost {df : List TenderRecord} (hne : df ≠ []) :
    minCost df ≤ maxCost df := by
  have hmem := listMin_mem (estimatedCosts_ne_nil hne)
  obtain ⟨r, hr, hq⟩ := List.mem_map.mp hmem
  rw [minCost, ← hq]
  exact cost_le_maxCost hr

theorem maxCost_pos {df : List TenderRecord} (hne : df ≠ [])
    (hpos : ∀ r ∈ df, 0 < r.estimated_cost) : 0 < maxCost df :=
  lt_of_lt_of_le (minCost_pos hne hpos) (minCost_le_maxCost hne)

/-! ### Facts about the round-half-even model of Python float formatting -/

theorem rndHE_eq_left {k : ℤ} {x : ℝ} (h1 : (k : ℝ) ≤ x) (h2 : x < k + 1 / 2) :
    rndHE x = k := by
  have hf : ⌊x⌋ = k := Int.floor_eq_iff.mpr ⟨h1, by linarith⟩
  rw [rndHE, hf, if_pos (by linarith)]

theorem rndHE_eq_right {k : ℤ} {x : ℝ} (h1 : (k : ℝ) + 1 / 2 < x) (h2 : x < k + 1) :
    rndHE x = k + 1 := by
  have hf : ⌊x⌋ = k := Int.floor_eq_iff.mpr ⟨by linarith, by linarith⟩
  rw [rndHE, hf, if_neg (by linarith), if_pos (by linarith)]

theorem rndHE_intCast (k : ℤ) : rndHE (k : ℝ) = k :=
  rndHE_eq_left le_rfl (by linarith)

/-! ### The bucket edges -/

theorem linspace_exp_mono {a b : ℝ} (hab : a ≤ b) (n : ℕ) {i j : ℕ} (hij : i ≤ j) :
    a + (b - a) * i / (n : ℝ) ≤ a + (b - a) * j / (n : ℝ) := by
  rcases Nat.eq_zero_or_pos n with rfl | hn
  · simp
  · have hn' : (0 : ℝ) < n := by exact_mod_cast hn
    have hm : (b - a) * i ≤ (b - a) * j :=
      mul_le_mul_of_nonneg_left (by exact_mod_cast hij) (by linarith)
    exact add_le_add_left ((div_le_div_iff_of_pos_right hn').mpr hm) a

theorem linspace_exp_strictMono {a b : ℝ} (hab : a < b) {n : ℕ} (hn : 0 < n)
    {i j : ℕ} (hij : i < j) :
    a + (b - a) * i / (n : ℝ) < a + (b - a) * j / (n : ℝ) := by
  have hn' : (0 : ℝ) < n := by exact_mod_cast hn
  have hm : (b - a) * i < (b - a) * j :=
    mul_lt_mul_of_pos_left (by exact_mod_cast hij) (by linarith)
  exact add_lt_add_left ((div_lt_div_iff_of_pos_right hn').mpr hm) a

theorem bucketEdges_eq (df : List TenderRecord) (n : ℕ) :
    bucketEdges df n = (List.range (n + 1)).map
      fun i : ℕ => (10 : ℝ) ^ (log_min df + (log_max df - log_min df) * (i : ℝ) / (n : ℝ)) := by
  rw [bucketEdges, linspace, List.map_map]
  simp only [Nat.add_sub_cancel, Function.comp_def]

theorem bucketEdges_length (df : List TenderRecord) (n : ℕ) :
    (bucketEdges df n).length = n + 1 := by
  rw [bucketEdges_eq, List.length_map, List.length_range]

theorem bucketEdges_getElem? (df : List TenderRecord) (n i : ℕ) (h : i < n + 1) :
    (bucketEdges df n)[i]? =
      some ((10 : ℝ) ^ (log_min df + (log_max df - log_min df) * (i : ℝ) / (n : ℝ))) := by
  rw [bucketEdges_eq]
  simp only [List.getElem?_map, List.getElem?_range h, Option.map_some']

theorem bucketEdges_chain_le (df : List TenderRecord) (n : ℕ)
    (hab : log_min df ≤ log_max df) : List.Chain' (· ≤ ·) (bucketEdges df n) := by
  rw [bucketEdges_eq, List.chain'_map]
  rw [show n + 1 = Nat.succ n from rfl, List.chain'_range_succ]
  intro m _
  exact (Real.rpow_le_rpow_left_iff (by norm_num)).mpr
    (linspace_exp_mono (by linarith) n (Nat.le_succ m))

theorem bucketEdges_chain_lt (df : List TenderRecord) (n : ℕ)
    (hab : log_min df < log_max df) (hn : 0 < n) :
    List.Chain' (· < ·) (bucketEdges df n) := by
  rw [bucketEdges_eq, List.chain'_map]
  rw [show n + 1 = Nat.succ n from rfl, List.chain'_range_succ]
  intro m _
  exact (Real.rpow_lt_rpow_left_iff (by norm_num)).mpr
    (linspace_exp_strictMono hab hn (Nat.lt_succ_self m))

theorem bucketEdges_nodup (df : List TenderRecord) (n : ℕ)
    (hab : log_min df < log_max df) (hn : 0 < n) : (bucketEdges df n).Nodup := by
  have hp : (bucketEdges df n).Pairwise (· < ·) :=
    List.chain'_iff_pairwise.mp (bucketEdges_chain_lt df n hab hn)
  exact hp.imp ne_of_lt

theorem log_min_le_log_max {df : List TenderRecord} (hne : df ≠ [])
    (hpos : ∀ r ∈ df, 0 < r.estimated_cost) : log_min df ≤ log_max df :=
  Real.logb_le_logb_of_le (by norm_num)
    (by exact_mod_cast minCost_pos hne hpos)
    (by exact_mod_cast minCost_le_maxCost hne)

theorem log_min_lt_log_max {df : List TenderRecord} (hne : df ≠ [])
    (hpos : ∀ r ∈ df, 0 < r.estimated_cost) (hlt : minCost df < maxCost df) :
    log_min df < log_max df :=
  Real.logb_lt_logb (by norm_num)
    (by exact_mod_cast minCost_pos hne hpos)
    (by exact_mod_cast hlt)

theorem bucketEdges_first (df : List TenderRecord) (n : ℕ) (hmin : 0 < minCost df) :
    (bucketEdges df n)[0]? = some ((minCost df : ℚ) : ℝ) := by
  rw [bucketEdges_getElem? df n 0 (by omega)]
  norm_num
  exact Real.rpow_logb (by norm_num) (by norm_num) (by exact_mod_cast hmin)

theorem bucketEdges_last (df : List TenderRecord) (n : ℕ) (hn : 0 < n)
    (hmax : 0 < maxCost df) :
    (bucketEdges df n)[n]? = some ((maxCost df : ℚ) : ℝ) := by
  rw [bucketEdges_getElem? df n n (by omega)]
  have hn' : (n : ℝ) ≠ 0 := by exact_mod_cast hn.ne'
  have hexp : log_min df + (log_max df - log_min df) * (n : ℝ) / (n : ℝ) = log_max df := by
    field_simp
  rw [hexp]
  exact congrArg some (Real.rpow_logb (by norm_num) (by norm_num) (by exact_mod_cast hmax))

theorem bucketEdges_const (df : List TenderRecord) (n : ℕ)
    (heq : minCost df = maxCost df) (i : ℕ) (h : i < n + 1) :
    (bucketEdges df n)[i]? = some ((10 : ℝ) ^ log_min df) := by
  rw [bucketEdges_getElem? df n i h]
  have : log_max df = log_min df := by rw [log_max, log_min, heq]
  rw [this]
  norm_num

/-! ### The interval search of `pd.cut` -/

theorem chain'_lt_head_le {l : List ℝ} (h : List.Chain' (· < ·) l) {x a : ℝ} {i : ℕ}
    (hx : l[0]? = some x) (ha : l[i]? = some a) : x ≤ a := by
  have hp := List.chain'_iff_pairwise.mp h
  rw [List.getElem?_eq_some] at hx ha
  obtain ⟨hx0, hxv⟩ := hx
  obtain ⟨hai, hav⟩ := ha
  rcases Nat.eq_zero_or_pos i with rfl | hi
  · exact le_of_eq (hxv.symm.trans hav)
  · have := List.pairwise_iff_getElem.mp hp 0 i hx0 hai hi
    rw [hxv, hav] at this
    exact this.le

theorem cutIdAux_eq_some_iff : ∀ (edges : List ℝ) (c : ℝ) (k j : ℕ),
    List.Chain' (· < ·) edges →
    (cutIdAux edges c k = some j ↔
      ∃ m a b, j = k + m ∧ edges[m]? = some a ∧ edges[m + 1]? = some b ∧ a < c ∧ c ≤ b)
  | [], c, k, j, _ => by simp [cutIdAux]
  | [e], c, k, j, _ => by simp [cutIdAux]
  | e1 :: e2 :: rest, c, k, j, hch => by
    have hch' : List.Chain' (· < ·) (e2 :: rest) := (List.chain'_cons.mp hch).2
    have ih := cutIdAux_eq_some_iff (e2 :: rest) c (k + 1) j hch'
    rw [cutIdAux]
    by_cases hc : e1 < c ∧ c ≤ e2
    · rw [if_pos hc]
      constructor
      · intro h
        obtain rfl : k = j := Option.some.inj h
        exact ⟨0, e1, e2, by omega, by simp, by simp, hc.1, hc.2⟩
      · rintro ⟨m, a, b, hj, ha, hb, h1, h2⟩
        rcases m with _ | m'
        · exact congrArg some (by omega)
        · exfalso
          have ha' : (e2 :: rest)[m']? = some a := by simpa using ha
          have hle : e2 ≤ a := chain'_lt_head_le hch' (by simp) ha'
          linarith [hc.2]
    · rw [if_neg hc, ih]
      constructor
      · rintro ⟨m, a, b, hj, ha, hb, h1, h2⟩
        exact ⟨m + 1, a, b, by omega, by simpa using ha, by simpa using hb, h1, h2⟩
      · rintro ⟨m, a, b, hj, ha, hb, h1, h2⟩
        rcases m with _ | m'
        · exfalso
          have ha' : e1 = a := by simpa using ha
          have hb' : e2 = b := by simpa using hb
          exact hc ⟨ha' ▸ h1, hb' ▸ h2⟩
        · exact ⟨m', a, b, by omega, by simpa using ha, by simpa using hb, h1, h2⟩

theorem cutId_eq_some_iff {edges : List ℝ} (hch : List.Chain' (· < ·) edges)
    (hlen : 2 ≤ edges.length) (c : ℝ) (j : ℕ) :
    cutId edges c = some j ↔
      ∃ a b, edges[j]? = some a ∧ edges[j + 1]? = some b ∧
        ((j = 0 ∧ a ≤ c) ∨ a < c) ∧ c ≤ b := by
  match edges, hlen with
  | e0 :: e1 :: rest, _ =>
    have h01 : e0 < e1 := (List.chain'_cons.mp hch).1
    rw [cutId]
    by_cases hc : c = e0
    · rw [if_pos hc]
      constructor
      · intro h
        obtain rfl : (0 : ℕ) = j := Option.some.inj h
        exact ⟨e0, e1, by simp, by simp, Or.inl ⟨rfl, le_of_eq hc.symm⟩, by rw [hc]; exact h01.le⟩
      · rintro ⟨a, b, ha, hb, hcase, h2'⟩
        rcases j with _ | j'
        · rfl
        · exfalso
          have hlt : a < c := by
            rcases hcase with ⟨hj0, _⟩ | hlt
            · exact absurd hj0 (by omega)
            · exact hlt
          have hlt' : a < e0 := hc ▸ hlt
          have hle : e0 ≤ a := chain'_lt_head_le hch (by simp) ha
          linarith
    · rw [if_neg hc, cutIdAux_eq_some_iff _ c 0 j hch]
      constructor
      · rintro ⟨m, a, b, hj, ha, hb, h1, h2⟩
        have hm : j = m := by omega
        subst hm
        exact ⟨a, b, ha, hb, Or.inr h1, h2⟩
      · rintro ⟨a, b, ha, hb, hcase, h2'⟩
        have h1' : a < c := by
          rcases hcase with ⟨hj0, hle⟩ | hlt
          · subst hj0
            have ha' : e0 = a := by simpa using ha
            exact lt_of_le_of_ne hle fun h => hc (h ▸ ha'.symm)
          · exact hlt
        exact ⟨j, a, b, by omega, ha, hb, h1', h2'⟩

theorem cutIdAux_total : ∀ (e1 : ℝ) (tl : List ℝ) (c : ℝ) (k : ℕ) (lst : ℝ), tl ≠ [] →
    e1 < c → (e1 :: tl).getLast? = some lst → c ≤ lst →
    ∃ m, cutIdAux (e1 :: tl) c k = some m
  | _, [], _, _, _, hne, _, _, _ => absurd rfl hne
  | e1, e2 :: rest, c, k, lst, _, h1, hlast, hle => by
    rw [cutIdAux]
    by_cases hc : e1 < c ∧ c ≤ e2
    · rw [if_pos hc]; exact ⟨k, rfl⟩
    · rw [if_neg hc]
      have h2c : e2 < c := lt_of_not_le fun h => hc ⟨h1, h⟩
      cases rest with
      | nil =>
        exfalso
        have hl : e2 = lst := by simpa using hlast
        rw [← hl] at hle
        linarith
      | cons e3 rest' =>
        exact cutIdAux_total e2 (e3 :: rest') c (k + 1) lst (by simp) h2c
          (by simpa using hlast) hle

theorem cutId_total (e0 : ℝ) (tl : List ℝ) (c lst : ℝ) (hne : tl ≠ [])
    (h0 : e0 ≤ c) (hlast : (e0 :: tl).getLast? = some lst) (hle : c ≤ lst) :
    ∃ j, cutId (e0 :: tl) c = some j := by
  cases tl with
  | nil => exact absurd rfl hne
  | cons e1 rest =>
    rw [cutId]
    by_cases hc : c = e0
    · rw [if_pos hc]; exact ⟨0, rfl⟩
    · rw [if_neg hc]
      exact cutIdAux_total e0 (e1 :: rest) c 0 lst (by simp)
        (lt_of_le_of_ne h0 (Ne.symm hc)) hlast hle

theorem cutId_pair (a c : ℝ) : cutId [a, a] c = if c = a then some 0 else none := by
  rw [cutId]
  by_cases hc : c = a
  · rw [if_pos hc, if_pos hc]
  · rw [if_neg hc, if_neg hc, cutIdAux,
      if_neg (by rintro ⟨h1, h2⟩; exact absurd (h1.trans_le h2) (lt_irrefl a))]
    simp [cutIdAux]

/-! ### Running `create_cost_buckets` -/

theorem snd_eq_of_mem_zip_map {α β : Type} (l : List α) (f : α → β) :
    ∀ p ∈ l.zip (l.map f), p.2 = f p.1 ∧ p.1 ∈ l := by
  induction l with
  | nil => simp
  | cons a tl ih =>
    intro p hp
    rw [List.map_cons, List.zip_cons_cons] at hp
    rcases List.mem_cons.mp hp with rfl | hp
    · exact ⟨rfl, List.mem_cons_self _ _⟩
    · obtain ⟨h1, h2⟩ := ih p hp
      exact ⟨h1, List.mem_cons_of_mem _ h2⟩

theorem ids_eq (df : List TenderRecord) (E : List ℝ) :
    ((estimatedCosts df).map fun q : ℚ => (q : ℝ)).map (cutId E) =
      df.map fun r => cutId E ((r.estimated_cost : ℚ) : ℝ) := by
  simp only [estimatedCosts, List.map_map]
  rfl

theorem create_ok_of (df : List TenderRecord) (n : ℕ)
    (h1 : List.Chain' (· ≤ ·) (bucketEdges df n))
    (h2 : (bucketEdges df n).Nodup ∨ (bucketEdges df n).length = 2)
    (h3 : (bucketLabels df n).Nodup) :
    create_cost_buckets df n = .ok
      (df.zip (df.map fun r => cutId (bucketEdges df n) ((r.estimated_cost : ℚ) : ℝ)),
        bucketEdges df n, bucketLabels df n) := by
  rw [create_cost_buckets, pdCut, if_neg (not_not_intro h1),
    if_neg (fun hand => hand.elim fun hnd hl => h2.elim hnd fun hlen => hl hlen),
    if_neg (not_not_intro h3), ids_eq]

theorem create_ok_elim {df : List TenderRecord} {n : ℕ}
    {out : List (TenderRecord × Option ℕ)} {e : List ℝ} {lb : List String}
    (h : create_cost_buckets df n = .ok (out, e, lb)) :
    e = bucketEdges df n ∧ lb = bucketLabels df n ∧
      out = df.zip (df.map fun r => cutId (bucketEdges df n) ((r.estimated_cost : ℚ) : ℝ)) ∧
      List.Chain' (· ≤ ·) (bucketEdges df n) ∧
      ((bucketEdges df n).Nodup ∨ (bucketEdges df n).length = 2) ∧
      (bucketLabels df n).Nodup := by
  rw [create_cost_buckets, pdCut] at h
  by_cases h1 : List.Chain' (· ≤ ·) (bucketEdges df n)
  case neg => rw [if_pos h1] at h; exact absurd h (by simp)
  rw [if_neg (not_not_intro h1)] at h
  by_cases h2 : ¬ (bucketEdges df n).Nodup ∧ (bucketEdges df n).length ≠ 2
  case pos => rw [if_pos h2] at h; exact absurd h (by simp)
  rw [if_neg h2] at h
  by_cases h3 : (bucketLabels df n).Nodup
  case neg => rw [if_pos h3] at h; exact absurd h (by simp)
  rw [if_neg (not_not_intro h3), ids_eq] at h
  simp only [Except.ok.injEq, Prod.mk.injEq] at h
  obtain ⟨ho, he, hl⟩ := h
  refine ⟨he.symm, hl.symm, ho.symm, h1, ?_, h3⟩
  rcases not_and_or.mp h2 with hnd | hl2
  · exact Or.inl (not_not.mp hnd)
  · exact Or.inr (not_ne_iff.mp hl2)

theorem create_degenerate (df : List TenderRecord) (n : ℕ)
    (heq : minCost df = maxCost df) (hn : 2 ≤ n) :
    create_cost_buckets df n = .error .binEdgesNotUnique := by
  have hchain : List.Chain' (· ≤ ·) (bucketEdges df n) :=
    bucketEdges_chain_le df n (le_of_eq (by rw [log_min, log_max, heq]))
  have hdup : ¬ (bucketEdges df n).Nodup := by
    intro hnd
    have h0 := bucketEdges_const df n heq 0 (by omega)
    have h1 := bucketEdges_const df n heq 1 (by omega)
    have h01 : (bucketEdges df n)[0]? = (bucketEdges df n)[1]? := by rw [h0, h1]
    have : (0 : ℕ) = 1 :=
      List.getElem?_inj (by rw [bucketEdges_length]; omega) hnd h01
    exact absurd this (by omega)
  have hlen : (bucketEdges df n).length ≠ 2 := by rw [bucketEdges_length]; omega
  rw [create_cost_buckets, pdCut, if_neg (not_not_intro hchain), if_pos ⟨hdup, hlen⟩]

theorem create_err_labels (df : List TenderRecord) (n : ℕ)
    (h1 : List.Chain' (· ≤ ·) (bucketEdges df n))
    (h2 : (bucketEdges df n).Nodup ∨ (bucketEdges df n).length = 2)
    (h3 : ¬ (bucketLabels df n).Nodup) :
    create_cost_buckets df n = .error .labelsNotUnique := by
  rw [create_cost_buckets, pdCut, if_neg (not_not_intro h1),
    if_neg (fun hand => hand.elim fun hnd hl => h2.elim hnd fun hlen => hl hlen),
    if_pos h3]

theorem bucketEdges_degenerate_pair (df : List TenderRecord)
    (heq : minCost df = maxCost df) (hmin : 0 < minCost df) :
    bucketEdges df 1 = [((minCost df : ℚ) : ℝ), ((minCost df : ℚ) : ℝ)] := by
  have hval : (10 : ℝ) ^ log_min df = ((minCost df : ℚ) : ℝ) := by
    rw [log_min]
    exact Real.rpow_logb (by norm_num) (by norm_num) (by exact_mod_cast hmin)
  apply List.ext_getElem?
  intro i
  match i with
  | 0 => rw [bucketEdges_const df 1 heq 0 (by omega), hval]; rfl
  | 1 => rw [bucketEdges_const df 1 heq 1 (by omega), hval]; rfl
  | (m + 2) =>
    rw [List.getElem?_eq_none (by rw [bucketEdges_length]; omega),
      List.getElem?_eq_none (by simp)]

theorem create_ok_cases {df : List TenderRecord} {n : ℕ}
    {out : List (TenderRecord × Option ℕ)} {e : List ℝ} {lb : List String}
    (hne : df ≠ []) (hn : 1 ≤ n)
    (hpos : ∀ r ∈ df, 0 < r.estimated_cost)
    (h : create_cost_buckets df n = .ok (out, e, lb)) :
    (minCost df < maxCost df ∧ List.Chain' (· < ·) (bucketEdges df n)) ∨
      (minCost df = maxCost df ∧ n = 1) := by
  rcases lt_or_eq_of_le (minCost_le_maxCost hne) with hlt | heq
  · exact Or.inl ⟨hlt, bucketEdges_chain_lt df n (log_min_lt_log_max hne hpos hlt) (by omega)⟩
  · refine Or.inr ⟨heq, ?_⟩
    rcases Nat.lt_or_ge n 2 with h2 | h2
    · omega
    · rw [create_degenerate df n heq h2] at h
      exact absurd h (by simp)

theorem cutId_bucketEdges_total {df : List TenderRecord} {n : ℕ}
    (hne : df ≠ []) (hn : 1 ≤ n)
    (hpos : ∀ r ∈ df, 0 < r.estimated_cost)
    (hch : List.Chain' (· < ·) (bucketEdges df n))
    {c : ℚ} (hc1 : minCost df ≤ c) (hc2 : c ≤ maxCost df) :
    ∃ j, cutId (bucketEdges df n) ((c : ℚ) : ℝ) = some j ∧ j < n := by
  have hmin := minCost_pos hne hpos
  have hmax := maxCost_pos hne hpos
  have h0 := bucketEdges_first df n hmin
  have hlast : (bucketEdges df n).getLast? = some ((maxCost df : ℚ) : ℝ) := by
    rw [List.getLast?_eq_getElem?, bucketEdges_length, Nat.add_sub_cancel,
      bucketEdges_last df n (by omega) hmax]
  have hlen : (bucketEdges df n).length = n + 1 := bucketEdges_length df n
  match hE : bucketEdges df n with
  | [] => rw [hE] at h0; exact absurd h0 (by simp)
  | e0 :: tl =>
    rw [hE] at h0 hlast hch hlen
    have he0 : e0 = ((minCost df : ℚ) : ℝ) := by simpa using h0
    have htl : tl ≠ [] := by
      intro hnil
      rw [hnil] at hlen
      simp at hlen
      omega
    obtain ⟨j, hj⟩ := cutId_total e0 tl ((c : ℚ) : ℝ) ((maxCost df : ℚ) : ℝ) htl
      (by rw [he0]; exact_mod_cast hc1) hlast (by exact_mod_cast hc2)
    refine ⟨j, hj, ?_⟩
    obtain ⟨a, b, _, hb, _, _⟩ := (cutId_eq_some_iff hch (by rw [hlen]; omega) _ j).mp hj
    have := (List.getElem?_eq_some.mp hb).1
    omega

theorem pairwise_lt_getElem? {l : List ℝ} (h : List.Chain' (· < ·) l) {i j : ℕ} {a b : ℝ}
    (hij : i < j) (ha : l[i]? = some a) (hb : l[j]? = some b) : a < b := by
  have hp := List.chain'_iff_pairwise.mp h
  obtain ⟨hi, hva⟩ := List.getElem?_eq_some.mp ha
  obtain ⟨hj, hvb⟩ := List.getElem?_eq_some.mp hb
  have hlt := List.pairwise_iff_getElem.mp hp i j hi hj hij
  rw [hva, hvb] at hlt
  exact hlt

theorem cutId_head (E : List ℝ) (x : ℝ) (h2 : 2 ≤ E.length) (h0 : E[0]? = some x) :
    cutId E x = some 0 := by
  match E, h2 with
  | e0 :: e1 :: rest, _ =>
    have he : e0 = x := by simpa using h0
    rw [cutId, if_pos he.symm]

/-- C1: amended. When `create_cost_buckets` succeeds, every row carrying the
minimum cost is assigned bucket `0` and every row carrying the maximum cost is
assigned bucket `num_buckets - 1`; but in the degenerate case
`minCost = maxCost` with `num_buckets ≥ 2` (in particular the dashboard's 50)
the call does not succeed: `pd.cut` raises its duplicate-bin-edges `ValueError`
and no row is assigned at all. -/
theorem claim1_min_max_bucket_assignment (df : List TenderRecord) (n : ℕ)
    (hne : df ≠ []) (hn : 1 ≤ n)
    (hpos : ∀ r ∈ df, 0 < r.estimated_cost) :
    (∀ out e lb, create_cost_buckets df n = .ok (out, e, lb) →
      ∀ p ∈ out, (p.1.estimated_cost = minCost df → p.2 = some 0) ∧
        (p.1.estimated_cost = maxCost df → p.2 = some (n - 1))) ∧
    (minCost df = maxCost df → 2 ≤ n →
      create_cost_buckets df n = .error .binEdgesNotUnique) := by
  constructor
  · intro out e lb hok p hp
    obtain ⟨he, hl, hout, hch_le, hnd_or, hlb⟩ := create_ok_elim hok
    rw [hout] at hp
    obtain ⟨hp2, hp1⟩ := snd_eq_of_mem_zip_map df _ p hp
    have hmin := minCost_pos hne hpos
    rcases create_ok_cases hne hn hpos hok with ⟨hlt, hch⟩ | ⟨heq, hn1⟩
    · constructor
      · intro hcmin
        rw [hp2, hcmin]
        exact cutId_head _ _ (by rw [bucketEdges_length]; omega)
          (bucketEdges_first df n hmin)
      · intro hcmax
        rw [hp2, hcmax]
        apply (cutId_eq_some_iff hch (by rw [bucketEdges_length]; omega) _ (n - 1)).mpr
        have hb := bucketEdges_last df n (by omega) (maxCost_pos hne hpos)
        have hsum : n - 1 + 1 = n := by omega
        obtain ⟨a, ha⟩ : ∃ a, (bucketEdges df n)[n - 1]? = some a := by
          have hl' : n - 1 < (bucketEdges df n).length := by rw [bucketEdges_length]; omega
          exact ⟨_, List.getElem?_eq_getElem hl'⟩
        refine ⟨a, ((maxCost df : ℚ) : ℝ), ha, by rw [hsum]; exact hb, Or.inr ?_, le_rfl⟩
        exact pairwise_lt_getElem? hch (show n - 1 < n by omega) ha hb
    · subst hn1
      have hpair := bucketEdges_degenerate_pair df heq hmin
      have hc : p.1.estimated_cost = minCost df :=
        le_antisymm (heq ▸ cost_le_maxCost hp1) (minCost_le_cost hp1)
      constructor
      · intro _
        rw [hp2, hpair, hc, cutId_pair, if_pos rfl]
      · intro _
        rw [hp2, hpair, hc, cutId_pair, if_pos rfl]
  · intro heq h2
    exact create_degenerate df n heq h2

theorem sum_count_eq_length (l : List (Option ℕ)) (n : ℕ)
    (h : ∀ x ∈ l, ∃ j, j < n ∧ x = some j) :
    (Finset.range n).sum (fun i => l.count (some i)) = l.length := by
  induction l with
  | nil => simp
  | cons x xs ih =>
    obtain ⟨j, hj, rfl⟩ := h x (List.mem_cons_self _ _)
    have ihh := ih fun y hy => h y (List.mem_cons_of_mem _ hy)
    simp only [List.count_cons, List.length_cons]
    rw [Finset.sum_add_distrib, ihh]
    congr 1
    have hsimp : ∀ i : ℕ, (if (some j : Option ℕ) == some i then 1 else 0) =
        if j = i then 1 else 0 := by
      intro i
      simp only [beq_iff_eq, Option.some.injEq]
    rw [Finset.sum_congr rfl fun i _ => hsimp i,
      Finset.sum_ite_eq (Finset.range n) j fun _ => 1]
    simp [Finset.mem_range.mpr hj]

theorem bucketLabels_length (df : List TenderRecord) (n : ℕ) :
    (bucketLabels df n).length = n := by
  simp only [bucketLabels, List.length_map, List.length_zip, List.length_tail,
    bucketEdges_length]
  omega

/-- C2: amended. Whenever `create_cost_buckets` succeeds, it produces exactly
`n` bucket labels and `n + 1` non-decreasing edges, keeps one output row per
input row, assigns every row exactly one bucket index in `[0, n)`, and the
per-bucket counts sum to the number of input rows. (As stated the claim is
false: the spec's own 2-row, 50-bucket scenario makes the call fail with
pandas' duplicate-labels `ValueError`, because adjacent log-spaced edges both
format as `€1K`.) -/
theorem claim2_bucketize_shape (df : List TenderRecord) (n : ℕ)
    (hne : df ≠ []) (hn : 1 ≤ n)
    (hpos : ∀ r ∈ df, 0 < r.estimated_cost)
    (out : List (TenderRecord × Option ℕ)) (e : List ℝ) (lb : List String)
    (hok : create_cost_buckets df n = .ok (out, e, lb)) :
    lb.length = n ∧ e.length = n + 1 ∧ List.Chain' (· ≤ ·) e ∧
      out.length = df.length ∧
      (∀ p ∈ out, ∃! j, p.2 = some j ∧ j < n) ∧
      (Finset.range n).sum (fun i => assignmentCounts out i) = df.length := by
  obtain ⟨he, hl, hout, hch_le, _, _⟩ := create_ok_elim hok
  have hmin := minCost_pos hne hpos
  have hforall : ∀ p ∈ out, ∃ j, p.2 = some j ∧ j < n := by
    intro p hp
    rw [hout] at hp
    obtain ⟨hp2, hp1⟩ := snd_eq_of_mem_zip_map df _ p hp
    rcases create_ok_cases hne hn hpos hok with ⟨hlt, hch⟩ | ⟨heq, hn1⟩
    · obtain ⟨j, hj, hjn⟩ := cutId_bucketEdges_total hne hn hpos hch
        (minCost_le_cost hp1) (cost_le_maxCost hp1)
      exact ⟨j, by rw [hp2]; exact hj, hjn⟩
    · subst hn1
      have hc : p.1.estimated_cost = minCost df :=
        le_antisymm (heq ▸ cost_le_maxCost hp1) (minCost_le_cost hp1)
      exact ⟨0, by
        rw [hp2, bucketEdges_degenerate_pair df heq hmin, hc, cutId_pair, if_pos rfl],
        by omega⟩
  refine ⟨by rw [hl, bucketLabels_length], by rw [he, bucketEdges_length],
    by rw [he]; exact hch_le, by rw [hout]; simp, ?_, ?_⟩
  · intro p hp
    obtain ⟨j, hj, hjn⟩ := hforall p hp
    exact ⟨j, ⟨hj, hjn⟩, fun y hy => Option.some.inj (hy.1.symm.trans hj)⟩
  · have hmaps : ∀ x ∈ out.map (·.2), ∃ j, j < n ∧ x = some j := by
      intro x hx
      obtain ⟨p, hp, rfl⟩ := List.mem_map.mp hx
      obtain ⟨j, hj, hjn⟩ := hforall p hp
      exact ⟨j, hjn, hj⟩
    have := sum_count_eq_length (out.map (·.2)) n hmaps
    rw [List.length_map] at this
    rw [show (fun i => assignmentCounts out i) = fun i => (out.map (·.2)).count (some i)
      from rfl, this, hout]
    simp

/-- C3: corrected semantics of the bucket intervals. On a successful run the
assignment is left-open right-closed: row cost `c` lands in bucket `j` exactly
when `edge[j] < c ≤ edge[j+1]`, except that `c` equal to `edge[0]` (the
minimum, `include_lowest=True`) lands in bucket `0`. In particular a cost
equal to an interior edge joins the lower-indexed bucket, and the assignment
is unique. -/
theorem claim3_interval_semantics (df : List TenderRecord) (n : ℕ)
    (hne : df ≠ []) (hn : 1 ≤ n)
    (hpos : ∀ r ∈ df, 0 < r.estimated_cost)
    (out : List (TenderRecord × Option ℕ)) (e : List ℝ) (lb : List String)
    (hok : create_cost_buckets df n = .ok (out, e, lb))
    (p : TenderRecord × Option ℕ) (hp : p ∈ out) (j : ℕ) :
    p.2 = some j ↔
      ∃ a b, e[j]? = some a ∧ e[j + 1]? = some b ∧
        ((j = 0 ∧ a ≤ ((p.1.estimated_cost : ℚ) : ℝ)) ∨
          a < ((p.1.estimated_cost : ℚ) : ℝ)) ∧
        ((p.1.estimated_cost : ℚ) : ℝ) ≤ b := by
  obtain ⟨he, _, hout, _, _, _⟩ := create_ok_elim hok
  subst he
  rw [hout] at hp
  obtain ⟨hp2, hp1⟩ := snd_eq_of_mem_zip_map df _ p hp
  rw [hp2]
  rcases create_ok_cases hne hn hpos hok with ⟨_, hch⟩ | ⟨heq, hn1⟩
  · exact cutId_eq_some_iff hch (by rw [bucketEdges_length]; omega) _ j
  · subst hn1
    have hmin := minCost_pos hne hpos
    have hc : p.1.estimated_cost = minCost df :=
      le_antisymm (heq ▸ cost_le_maxCost hp1) (minCost_le_cost hp1)
    rw [bucketEdges_degenerate_pair df heq hmin, hc, cutId_pair, if_pos rfl]
    constructor
    · intro h
      obtain rfl : (0 : ℕ) = j := Option.some.inj h
      exact ⟨_, _, rfl, rfl, Or.inl ⟨rfl, le_rfl⟩, le_rfl⟩
    · rintro ⟨a, b, ha, hb, _, _⟩
      rcases j with _ | j'
      · rfl
      · exfalso
        rcases j' with _ | j''
        · simp at hb
        · simp at hb

/-! ### Numeric evaluation helpers -/

theorem logb_ten_pow (k : ℕ) : Real.logb 10 ((10 : ℝ) ^ (k : ℕ)) = k := by
  rw [← Real.rpow_natCast]
  exact Real.logb_rpow (by norm_num) (by norm_num)

theorem logb_100 : Real.logb 10 (100 : ℝ) = 2 := by
  rw [show (100 : ℝ) = (10 : ℝ) ^ (2 : ℕ) by norm_num, logb_ten_pow]; norm_num

theorem logb_1000 : Real.logb 10 (1000 : ℝ) = 3 := by
  rw [show (1000 : ℝ) = (10 : ℝ) ^ (3 : ℕ) by norm_num, logb_ten_pow]; norm_num

theorem logb_10000 : Real.logb 10 (10000 : ℝ) = 4 := by
  rw [show (10000 : ℝ) = (10 : ℝ) ^ (4 : ℕ) by norm_num, logb_ten_pow]; norm_num

theorem logb_100000 : Real.logb 10 (100000 : ℝ) = 5 := by
  rw [show (100000 : ℝ) = (10 : ℝ) ^ (5 : ℕ) by norm_num, logb_ten_pow]; norm_num

theorem ten_rpow_two : (10 : ℝ) ^ (2 : ℝ) = 100 := by
  rw [show (2 : ℝ) = ((2 : ℕ) : ℝ) by norm_num, Real.rpow_natCast]; norm_num

theorem ten_rpow_three : (10 : ℝ) ^ (3 : ℝ) = 1000 := by
  rw [show (3 : ℝ) = ((3 : ℕ) : ℝ) by norm_num, Real.rpow_natCast]; norm_num

theorem ten_rpow_four : (10 : ℝ) ^ (4 : ℝ) = 10000 := by
  rw [show (4 : ℝ) = ((4 : ℕ) : ℝ) by norm_num, Real.rpow_natCast]; norm_num

theorem ten_rpow_five : (10 : ℝ) ^ (5 : ℝ) = 100000 := by
  rw [show (5 : ℝ) = ((5 : ℕ) : ℝ) by norm_num, Real.rpow_natCast]; norm_num

/-! ### A fully evaluated successful run on the spec scenario table `t4` -/

theorem t4_minCost : minCost t4 = 100 := by decide

theorem t4_maxCost : maxCost t4 = 100000 := by decide

theorem t4_edges : bucketEdges t4 3 = [(100 : ℝ), 1000, 10000, 100000] := by
  have ha : log_min t4 = 2 := by
    rw [log_min, t4_minCost, show (((100 : ℚ) : ℝ)) = (100 : ℝ) by norm_num, logb_100]
  have hb : log_max t4 = 5 := by
    rw [log_max, t4_maxCost, show (((100000 : ℚ) : ℝ)) = (100000 : ℝ) by norm_num, logb_100000]
  rw [bucketEdges_eq, ha, hb, show List.range 4 = [0, 1, 2, 3] from rfl]
  simp only [List.map_cons, List.map_nil]
  norm_num [ten_rpow_two, ten_rpow_three, ten_rpow_four, ten_rpow_five]

theorem fmtEdge_100 : fmtEdge (100 : ℝ) = "€100" := by
  rw [fmtEdge, if_pos (by norm_num),
    show rndHE (100 : ℝ) = 100 by
      rw [show (100 : ℝ) = ((100 : ℤ) : ℝ) by norm_num]; exact rndHE_intCast 100]
  decide

theorem fmtEdge_1000 : fmtEdge (1000 : ℝ) = "€1K" := by
  rw [fmtEdge, if_neg (by norm_num), if_pos (by norm_num),
    show (1000 : ℝ) / 1000 = ((1 : ℤ) : ℝ) by norm_num, rndHE_intCast]
  decide

theorem fmtEdge_10000 : fmtEdge (10000 : ℝ) = "€10K" := by
  rw [fmtEdge, if_neg (by norm_num), if_pos (by norm_num),
    show (10000 : ℝ) / 1000 = ((10 : ℤ) : ℝ) by norm_num, rndHE_intCast]
  decide

theorem fmtEdge_100000 : fmtEdge (100000 : ℝ) = "€100K" := by
  rw [fmtEdge, if_neg (by norm_num), if_pos (by norm_num),
    show (100000 : ℝ) / 1000 = ((100 : ℤ) : ℝ) by norm_num, rndHE_intCast]
  decide

theorem t4_labels : bucketLabels t4 3 = ["€100 - €1K", "€1K - €10K", "€10K - €100K"] := by
  rw [bucketLabels, t4_edges]
  simp only [List.tail_cons, List.zip_cons_cons, List.zip_nil_right,
    List.map_cons, List.map_nil]
  rw [fmtEdge_100, fmtEdge_1000, fmtEdge_10000, fmtEdge_100000]
  decide

theorem cutId4_100 : cutId [(100 : ℝ), 1000, 10000, 100000] 100 = some 0 := by
  rw [cutId, if_pos rfl]

theorem cutId4_1000 : cutId [(100 : ℝ), 1000, 10000, 100000] 1000 = some 0 := by
  rw [cutId, if_neg (by norm_num), cutIdAux, if_pos (by norm_num)]

theorem cutId4_10000 : cutId [(100 : ℝ), 1000, 10000, 100000] 10000 = some 1 := by
  rw [cutId, if_neg (by norm_num), cutIdAux, if_neg (by norm_num),
    cutIdAux, if_pos (by norm_num)]

theorem cutId4_100000 : cutId [(100 : ℝ), 1000, 10000, 100000] 100000 = some 2 := by
  rw [cutId, if_neg (by norm_num), cutIdAux, if_neg (by norm_num),
    cutIdAux, if_neg (by norm_num), cutIdAux, if_pos (by norm_num)]

theorem t4_run : create_cost_buckets t4 3 = .ok
    ([(sampleRow 1 100, some 0), (sampleRow 2 1000, some 0),
      (sampleRow 3 10000, some 1), (sampleRow 4 100000, some 2)],
      [(100 : ℝ), 1000, 10000, 100000],
      ["€100 - €1K", "€1K - €10K", "€10K - €100K"]) := by
  have hch : List.Chain' (· ≤ ·) (bucketEdges t4 3) := by
    rw [t4_edges]
    norm_num [List.chain'_cons, List.chain'_singleton]
  have hnd : (bucketEdges t4 3).Nodup := by
    rw [t4_edges]
    norm_num [List.nodup_cons, List.mem_cons]
  have hlb : (bucketLabels t4 3).Nodup := by rw [t4_labels]; decide
  rw [create_ok_of t4 3 hch (Or.inl hnd) hlb, t4_edges, t4_labels]
  simp only [t4, sampleRow, List.map_cons, List.map_nil, List.zip_cons_cons,
    List.zip_nil_right]
  norm_num [cutId4_100, cutId4_1000, cutId4_10000, cutId4_100000]

theorem ten_rpow_six : (10 : ℝ) ^ (6 : ℝ) = 1000000 := by
  rw [show (6 : ℝ) = ((6 : ℕ) : ℝ) by norm_num, Real.rpow_natCast]; norm_num

theorem bucketLabels_getElem? (df : List TenderRecord) (n i : ℕ) (h : i < n) :
    (bucketLabels df n)[i]? = some
      (fmtEdge ((10 : ℝ) ^ (log_min df + (log_max df - log_min df) * (i : ℝ) / (n : ℝ)))
        ++ " - " ++
        fmtEdge ((10 : ℝ) ^
          (log_min df + (log_max df - log_min df) * ((i + 1 : ℕ) : ℝ) / (n : ℝ)))) := by
  rw [bucketLabels, List.getElem?_map]
  have hz : ((bucketEdges df n).zip (bucketEdges df n).tail)[i]? = some
      ((10 : ℝ) ^ (log_min df + (log_max df - log_min df) * (i : ℝ) / (n : ℝ)),
        (10 : ℝ) ^ (log_min df + (log_max df - log_min df) * ((i + 1 : ℕ) : ℝ) / (n : ℝ))) :=
    List.getElem?_zip_eq_some.mpr
      ⟨bucketEdges_getElem? df n i (by omega),
        by rw [List.getElem?_tail]; exact bucketEdges_getElem? df n (i + 1) (by omega)⟩
  rw [hz, Option.map_some']

/-- On the scenario table the edges `10 ^ (3 + t)` for `0 ≤ t ≤ 2/50` all
format as `€1K`: the `.0f`-rounded value of `10 ^ t` is `1` because
`10 ^ (2/50) < 1.5`. -/
theorem fmtEdge_scen (t : ℝ) (h0 : 0 ≤ t) (h2 : t ≤ 2 / 50) :
    fmtEdge ((10 : ℝ) ^ ((3 : ℝ) + t)) = "€1K" := by
  have h10 : (1 : ℝ) < 10 := by norm_num
  have hge : (1000 : ℝ) ≤ (10 : ℝ) ^ ((3 : ℝ) + t) := by
    rw [← ten_rpow_three]
    exact (Real.rpow_le_rpow_left_iff h10).mpr (by linarith)
  have hlt6 : (10 : ℝ) ^ ((3 : ℝ) + t) < 1000000 := by
    rw [← ten_rpow_six]
    exact (Real.rpow_lt_rpow_left_iff h10).mpr (by linarith)
  have hdiv : (10 : ℝ) ^ ((3 : ℝ) + t) / 1000 = (10 : ℝ) ^ t := by
    rw [← ten_rpow_three, ← Real.rpow_sub (by norm_num)]
    norm_num
  have hkey : (10 : ℝ) ^ ((2 : ℝ) / 50) < 3 / 2 := by
    by_contra hcon
    push_neg at hcon
    have h50 : ((3 : ℝ) / 2) ^ (50 : ℕ) ≤ ((10 : ℝ) ^ ((2 : ℝ) / 50)) ^ (50 : ℕ) :=
      pow_le_pow_left₀ (by norm_num) hcon 50
    rw [← Real.rpow_natCast ((10 : ℝ) ^ ((2 : ℝ) / 50)) 50,
      ← Real.rpow_mul (by norm_num)] at h50
    norm_num [ten_rpow_two] at h50
  have hup : (10 : ℝ) ^ t < 3 / 2 :=
    lt_of_le_of_lt ((Real.rpow_le_rpow_left_iff h10).mpr h2) hkey
  have hlow : (1 : ℝ) ≤ (10 : ℝ) ^ t := by
    rw [show (1 : ℝ) = (10 : ℝ) ^ (0 : ℝ) from (Real.rpow_zero 10).symm]
    exact (Real.rpow_le_rpow_left_iff h10).mpr h0
  have hrnd : rndHE ((10 : ℝ) ^ t) = 1 :=
    rndHE_eq_left (k := 1) (by push_cast; linarith) (by push_cast; linarith)
  rw [fmtEdge, if_neg (by linarith), if_pos (by linarith), hdiv, hrnd]
  decide

theorem tScen_log_min : log_min tScen = 3 := by
  rw [log_min, show minCost tScen = 1000 by decide,
    show ((1000 : ℚ) : ℝ) = (1000 : ℝ) by norm_num, logb_1000]

theorem tScen_log_max : log_max tScen = 4 := by
  rw [log_max, show maxCost tScen = 10000 by decide,
    show ((10000 : ℚ) : ℝ) = (10000 : ℝ) by norm_num, logb_10000]

theorem tScen_label0 : (bucketLabels tScen 50)[0]? = some "€1K - €1K" := by
  have h0 := bucketLabels_getElem? tScen 50 0 (by omega)
  rw [tScen_log_min, tScen_log_max] at h0
  rw [show (3 : ℝ) + ((4 : ℝ) - 3) * ((0 : ℕ) : ℝ) / ((50 : ℕ) : ℝ) = 3 + 0 by norm_num,
    show (3 : ℝ) + ((4 : ℝ) - 3) * ((0 + 1 : ℕ) : ℝ) / ((50 : ℕ) : ℝ) = 3 + 1 / 50 by norm_num,
    fmtEdge_scen 0 (by norm_num) (by norm_num),
    fmtEdge_scen (1 / 50) (by norm_num) (by norm_num)] at h0
  exact h0

theorem tScen_label1 : (bucketLabels tScen 50)[1]? = some "€1K - €1K" := by
  have h1 := bucketLabels_getElem? tScen 50 1 (by omega)
  rw [tScen_log_min, tScen_log_max] at h1
  rw [show (3 : ℝ) + ((4 : ℝ) - 3) * ((1 : ℕ) : ℝ) / ((50 : ℕ) : ℝ) = 3 + 1 / 50 by norm_num,
    show (3 : ℝ) + ((4 : ℝ) - 3) * ((1 + 1 : ℕ) : ℝ) / ((50 : ℕ) : ℝ) = 3 + 2 / 50 by norm_num,
    fmtEdge_scen (1 / 50) (by norm_num) (by norm_num),
    fmtEdge_scen (2 / 50) (by norm_num) (by norm_num)] at h1
  exact h1

theorem tScen_run : create_cost_buckets tScen 50 = .error .labelsNotUnique := by
  have hchle : List.Chain' (· ≤ ·) (bucketEdges tScen 50) :=
    bucketEdges_chain_le tScen 50 (by rw [tScen_log_min, tScen_log_max]; norm_num)
  have hnd : (bucketEdges tScen 50).Nodup :=
    bucketEdges_nodup tScen 50 (by rw [tScen_log_min, tScen_log_max]; norm_num) (by omega)
  have hdup : ¬ (bucketLabels tScen 50).Nodup := by
    intro h
    have h01 : (bucketLabels tScen 50)[0]? = (bucketLabels tScen 50)[1]? := by
      rw [tScen_label0, tScen_label1]
    have : (0 : ℕ) = 1 :=
      List.getElem?_inj (by rw [bucketLabels_length]; omega) h h01
    exact absurd this (by omega)
  exact create_err_labels tScen 50 hchle (Or.inl hnd) hdup

/-- C1: counterexample. On a table whose two rows both cost 5000 (the spec's
"all rows share identical cost" edge case) the dashboard's
`create_cost_buckets(df, 50)` does not succeed: all 51 bucket edges coincide
and `pd.cut` raises its duplicate-bin-edges `ValueError`. -/
theorem claim1_counterexample :
    create_cost_buckets tEq 50 = Except.error CutError.binEdgesNotUnique ∧
      minCost tEq = maxCost tEq ∧ tEq ≠ [] ∧
      tEq.all (fun r => decide (0 < r.estimated_cost)) = true :=
  ⟨create_degenerate tEq 50 (by decide) (by omega), by decide, by decide, by decide⟩

/-- C1: witness. The hypotheses of `claim1_min_max_bucket_assignment` hold at
the concrete four-row table `t4` with 3 buckets. -/
theorem claim1_witness :
    t4 ≠ [] ∧ (1 : ℕ) ≤ 3 ∧ (∀ r ∈ t4, 0 < r.estimated_cost) ∧
      ((∀ out e lb, create_cost_buckets t4 3 = .ok (out, e, lb) → ∀ p ∈ out,
          (p.1.estimated_cost = minCost t4 → p.2 = some 0) ∧
          (p.1.estimated_cost = maxCost t4 → p.2 = some (3 - 1))) ∧
        (minCost t4 = maxCost t4 → 2 ≤ 3 →
          create_cost_buckets t4 3 = .error .binEdgesNotUnique)) :=
  ⟨by decide, by omega, by decide,
    claim1_min_max_bucket_assignment t4 3 (by decide) (by omega) (by decide)⟩

/-- C2: counterexample. The spec's scenario — bucketizing the 2 surviving rows
(costs 1000 and 10000) with `bucketCount = 50` — does not return 50 buckets:
the first two bucket labels both format as `€1K - €1K`, so `pd.cut` raises its
duplicate-labels `ValueError`. -/
theorem claim2_counterexample :
    create_cost_buckets tScen 50 = Except.error CutError.labelsNotUnique ∧
      tScen.length = 2 ∧
      tScen.all (fun r => decide (0 < r.estimated_cost)) = true ∧
      (bucketLabels tScen 50)[0]? = some "€1K - €1K" ∧
      (bucketLabels tScen 50)[1]? = some "€1K - €1K" :=
  ⟨tScen_run, by decide, by decide, tScen_label0, tScen_label1⟩

/-- C2: witness. The hypotheses of `claim2_bucketize_shape` hold at the
concrete successful run on `t4` with 3 buckets. -/
theorem claim2_witness :
    t4 ≠ [] ∧ (1 : ℕ) ≤ 3 ∧ (∀ r ∈ t4, 0 < r.estimated_cost) ∧
      (["€100 - €1K", "€1K - €10K", "€10K - €100K"].length = 3 ∧
        [(100 : ℝ), 1000, 10000, 100000].length = 3 + 1 ∧
        List.Chain' (· ≤ ·) [(100 : ℝ), 1000, 10000, 100000] ∧
        [(sampleRow 1 100, some 0), (sampleRow 2 1000, some 0),
          (sampleRow 3 10000, some 1), (sampleRow 4 100000, some 2)].length = t4.length ∧
        (∀ p ∈ [(sampleRow 1 100, some 0), (sampleRow 2 1000, some 0),
            (sampleRow 3 10000, some 1), (sampleRow 4 100000, some 2)],
          ∃! j, p.2 = some j ∧ j < 3) ∧
        (Finset.range 3).sum
          (fun i => assignmentCounts [(sampleRow 1 100, some 0), (sampleRow 2 1000, some 0),
            (sampleRow 3 10000, some 1), (sampleRow 4 100000, some 2)] i) = t4.length) :=
  ⟨by decide, by omega, by decide,
    claim2_bucketize_shape t4 3 (by decide) (by omega) (by decide) _ _ _ t4_run⟩

/-- C3: counterexample. On `t4` with 3 buckets the edges are exactly
100, 1000, 10000, 100000 and the row with cost 1000 — a cost equal to the
interior edge `edge[1]`, not the maximum — is assigned bucket 0, whereas the
claim's rule `edge[i] <= cost < edge[i+1]` would put it in bucket 1
(`edge[1] <= 1000 < edge[2]`). -/
theorem claim3_counterexample :
    create_cost_buckets t4 3 = .ok
      ([(sampleRow 1 100, some 0), (sampleRow 2 1000, some 0),
        (sampleRow 3 10000, some 1), (sampleRow 4 100000, some 2)],
        [(100 : ℝ), 1000, 10000, 100000],
        ["€100 - €1K", "€1K - €10K", "€10K - €100K"]) ∧
      (sampleRow 2 1000).estimated_cost = 1000 ∧
      ((1000 : ℝ) ≤ 1000 ∧ (1000 : ℝ) < 10000) ∧
      (1000 : ℚ) ≠ maxCost t4 ∧
      (some 0 : Option ℕ) ≠ some 1 :=
  ⟨t4_run, by decide, by norm_num, by decide, by decide⟩

/-- C3: witness. The characterization of `claim3_interval_semantics`,
instantiated on the concrete run on `t4`, at the row with cost 1000 and
bucket index 0: the cost sits in the left-closed first interval. -/
theorem claim3_witness :
    ∃ a b, ([(100 : ℝ), 1000, 10000, 100000] : List ℝ)[(0 : ℕ)]? = some a ∧
      ([(100 : ℝ), 1000, 10000, 100000] : List ℝ)[(0 : ℕ) + 1]? = some b ∧
      (((0 : ℕ) = 0 ∧ a ≤ (((sampleRow 2 1000).estimated_cost : ℚ) : ℝ)) ∨
        a < (((sampleRow 2 1000).estimated_cost : ℚ) : ℝ)) ∧
      (((sampleRow 2 1000).estimated_cost : ℚ) : ℝ) ≤ b :=
  (claim3_interval_semantics t4 3 (by decide) (by omega) (by decide) _ _ _ t4_run
    (sampleRow 2 1000, some 0) (by decide) 0).mp rfl

/-- C10: `create_cost_buckets` modifies no existing data. On every successful
run the first components of the output rows are exactly the input rows, in
order; the only change is the paired bucket-index column. -/
theorem claim10_frame (df : List TenderRecord) (n : ℕ)
    (out : List (TenderRecord × Option ℕ)) (e : List ℝ) (lb : List String)
    (hok : create_cost_buckets df n = .ok (out, e, lb)) :
    out.map Prod.fst = df ∧ out.length = df.length := by
  obtain ⟨_, _, hout, _, _, _⟩ := create_ok_elim hok
  subst hout
  constructor
  · exact List.map_fst_zip _ _ (by simp)
  · simp

/-- C10: witness. The frame property instantiated on the concrete successful
run on `t4`. -/
theorem claim10_witness :
    [(sampleRow 1 100, some 0), (sampleRow 2 1000, some 0),
        (sampleRow 3 10000, some 1), (sampleRow 4 100000, some 2)].map Prod.fst = t4 ∧
      [(sampleRow 1 100, some 0), (sampleRow 2 1000, some 0),
        (sampleRow 3 10000, some 1), (sampleRow 4 100000, some 2)].length = t4.length :=
  claim10_frame t4 3 _ _ _ t4_run

/-- C4: amended. On an empty filtered table `main` does skip the bucketing,
shows the no-data warning and returns before any chart; but the four summary
metrics are still computed and rendered first: the count is 0, the sum
formats as `€0`, and the mean and median of the empty column are NaN and are
displayed as the literal string `€nan`. -/
theorem claim4_empty_render :
    (renderMain []).bucketed = none ∧
      (renderMain []).totalTenders = 0 ∧
      (renderMain []).totalValueStr = "€0" ∧
      (renderMain []).avgCostStr = "€nan" ∧
      (renderMain []).medianCostStr = "€nan" ∧
      (renderMain []).noDataWarning = true ∧
      (renderMain []).chartsRendered = false := by
  have htv : fmtTotalValue ((0 : ℚ) : ℝ) = "€0" := by
    rw [show (((0 : ℚ)) : ℝ) = ((0 : ℤ) : ℝ) by norm_num, fmtTotalValue,
      if_neg (by norm_num), if_neg (by norm_num), if_neg (by norm_num), rndHE_intCast]
    decide
  refine ⟨by simp [renderMain], by simp [renderMain], ?_,
    by simp [renderMain, seriesMean, estimatedCosts, fmtAvgCostOf],
    by simp [renderMain, seriesMedian, estimatedCosts, fmtMedianCostOf],
    by simp [renderMain], by simp [renderMain]⟩
  show fmtTotalValue ((seriesSum (estimatedCosts []) : ℚ) : ℝ) = "€0"
  rw [show seriesSum (estimatedCosts []) = 0 from rfl]
  exact htv

/-- C4: counterexample. The summary-statistics step is not skipped on an empty
filtered table: the mean and median are computed (as NaN) and rendered as the
string `€nan` in the metric row, before the no-data warning. -/
theorem claim4_counterexample :
    (renderMain []).avgCostStr = "€nan" ∧ (renderMain []).medianCostStr = "€nan" ∧
      ("€nan" : String) ≠ "No data" := by
  refine ⟨by simp [renderMain, seriesMean, estimatedCosts, fmtAvgCostOf],
    by simp [renderMain, seriesMedian, estimatedCosts, fmtMedianCostOf], by decide⟩

/-- C6: amended. The dashboard has three separately written magnitude-adaptive
formatters, not one shared one. They agree in part: the average and median
formatters are identical everywhere, the total-value formatter agrees with
them below the extra `€…B` branch at 10^9, and the bucket-label formatter
agrees with them below 1000 and at or above 10^6; but on `[1000, 10^6)` the
label formatter shows whole thousands (`€2K`) while the statistics formatters
show one decimal (`€1.6K`), so they are not extensionally equal. -/
theorem claim6_formatters (v : ℝ) :
    fmtAvgCost v = fmtMedianCost v ∧
      (v < 1000000000 → fmtTotalValue v = fmtAvgCost v) ∧
      (v < 1000 → fmtEdge v = fmtAvgCost v) ∧
      (1000000 ≤ v → fmtEdge v = fmtAvgCost v) := by
  refine ⟨rfl, ?_, ?_, ?_⟩
  · intro h
    rw [fmtTotalValue, fmtAvgCost, if_neg (by linarith)]
  · intro h
    rw [fmtEdge, fmtAvgCost, if_pos h, if_neg (by linarith), if_neg (by linarith)]
  · intro h
    rw [fmtEdge, fmtAvgCost, if_neg (by linarith), if_neg (by linarith), if_pos h]

/-- C6: counterexample. At the value 1600 the bucket-label formatter renders
`€2K` while the statistics formatters render `€1.6K`: the two formatting rules
are not one shared function and are not extensionally equal. -/
theorem claim6_counterexample :
    fmtEdge (1600 : ℝ) = "€2K" ∧ fmtAvgCost (1600 : ℝ) = "€1.6K" ∧
      fmtTotalValue (1600 : ℝ) = "€1.6K" ∧ ("€2K" : String) ≠ "€1.6K" := by
  have hr : rndHE ((1600 : ℝ) / 1000) = 2 := by
    have h := rndHE_eq_right (k := 1) (x := (1600 : ℝ) / 1000)
      (by push_cast; norm_num) (by push_cast; norm_num)
    simpa using h
  have hd : oneDecStr ((1600 : ℝ) / 1000) = "1.6" := by
    rw [oneDecStr, show ((1600 : ℝ) / 1000 * 10) = ((16 : ℤ) : ℝ) by norm_num,
      rndHE_intCast]
    decide
  refine ⟨?_, ?_, ?_, by decide⟩
  · rw [fmtEdge, if_neg (by norm_num), if_pos (by norm_num), hr]
    decide
  · rw [fmtAvgCost, if_neg (by norm_num), if_pos (by norm_num), hd]
    decide
  · rw [fmtTotalValue, if_neg (by norm_num), if_neg (by norm_num), if_pos (by norm_num), hd]
    decide

/-- C6: witness. The partial agreements of `claim6_formatters` at the concrete
values 500 and 2000000. -/
theorem claim6_witness :
    fmtAvgCost (500 : ℝ) = fmtMedianCost 500 ∧
      ((500 : ℝ) < 1000000000 ∧ fmtTotalValue (500 : ℝ) = fmtAvgCost 500) ∧
      ((500 : ℝ) < 1000 ∧ fmtEdge (500 : ℝ) = fmtAvgCost 500) ∧
      ((1000000 : ℝ) ≤ 2000000 ∧ fmtEdge (2000000 : ℝ) = fmtAvgCost 2000000) :=
  ⟨(claim6_formatters 500).1,
    ⟨by norm_num, (claim6_formatters 500).2.1 (by norm_num)⟩,
    ⟨by norm_num, (claim6_formatters 500).2.2.1 (by norm_num)⟩,
    ⟨by norm_num, (claim6_formatters 2000000).2.2.2 (by norm_num)⟩⟩

/-- C7: the three sidebar filters compose by logical AND and commute: applying
the cost-range filter and the sector filter in either order gives the same
list, and the composite equals one filter by the conjunction of the three
predicates (`'All'` modelled as `none`). -/
theorem claim7_filters_commute (df : List TenderRecord) (min_cost max_cost : ℚ)
    (s p : Option String) :
    costRangeFilter min_cost max_cost (sectorFilter s df) =
      sectorFilter s (costRangeFilter min_cost max_cost df) ∧
    ∀ r, r ∈ applyFilters df min_cost max_cost s p ↔
      r ∈ df ∧ (min_cost ≤ r.estimated_cost ∧ r.estimated_cost ≤ max_cost) ∧
        (match s with | none => True | some v => r.procurement_sector_code = some v) ∧
        (match p with | none => True | some v => r.procedure_type_code = some v) := by
  constructor
  · cases s with
    | none => rfl
    | some v =>
      rw [sectorFilter, sectorFilter, costRangeFilter, costRangeFilter,
        List.filter_filter, List.filter_filter]
      exact List.filter_congr fun r _ => Bool.and_comm _ _
  · intro r
    cases s <;> cases p <;>
      simp only [applyFilters, costRangeFilter, sectorFilter, procedureFilter,
        List.mem_filter, decide_eq_true_eq] <;>
      tauto

/-- C8: the cost-range filter keeps exactly the rows whose cost lies in
`[min, max]`, inclusive at both ends, and an inverted range (`max < min`)
yields the empty table rather than an error. -/
theorem claim8_cost_range (df : List TenderRecord) (mn mx : ℚ) :
    (∀ r, r ∈ costRangeFilter mn mx df ↔
      r ∈ df ∧ mn ≤ r.estimated_cost ∧ r.estimated_cost ≤ mx) ∧
    (mx < mn → costRangeFilter mn mx df = []) := by
  constructor
  · intro r
    simp [costRangeFilter, List.mem_filter]
  · intro h
    refine List.filter_eq_nil_iff.mpr fun r _ => ?_
    simp only [decide_eq_true_eq]
    rintro ⟨h1, h2⟩
    linarith

/-- C8: witness. An inverted range on the concrete table `t4` yields the
empty table. -/
theorem claim8_witness :
    ((10 : ℚ) < 100) ∧ costRangeFilter 100 10 t4 = [] :=
  ⟨by norm_num, (claim8_cost_range t4 100 10).2 (by norm_num)⟩

/-- C9: the composite filter returns a subsequence of the input table: every
output row is an input row, unchanged, and the relative order is preserved. -/
theorem claim9_filter_sublist (df : List TenderRecord) (mn mx : ℚ)
    (s p : Option String) : (applyFilters df mn mx s p).Sublist df := by
  have h2 : ∀ l : List TenderRecord, (sectorFilter s l).Sublist l := by
    intro l
    cases s with
    | none => exact List.Sublist.refl l
    | some v => exact List.filter_sublist l
  have h3 : ∀ l : List TenderRecord, (procedureFilter p l).Sublist l := by
    intro l
    cases p with
    | none => exact List.Sublist.refl l
    | some v => exact List.filter_sublist l
  exact ((h3 _).trans (h2 _)).trans (List.filter_sublist df)

/-- C5: amended. The category ranking groups the rows by `primary_cpv_name`
with the pandas `groupby` defaults — which drop rows whose key is null —
computes each group's sum and count of `estimated_cost`, sorts descending by
sum and keeps at most the top 10; each reported group really occurs in the
table and carries the correct sum and count. -/
theorem claim5_top_categories (df : List TenderRecord) :
    (topCategories df).length ≤ 10 ∧
      (topCategories df).Pairwise (fun a b => b.2.1 ≤ a.2.1) ∧
      ∀ g ∈ topCategories df,
        (∃ r ∈ df, r.primary_cpv_name = some g.1) ∧
        g.2.1 = seriesSum (estimatedCosts
          (df.filter fun r => decide (r.primary_cpv_name = some g.1))) ∧
        g.2.2 = (df.filter fun r => decide (r.primary_cpv_name = some g.1)).length := by
  have hmain : topCategories df =
      (((((df.filterMap (·.primary_cpv_name)).dedup).mergeSort
          (fun a b => decide (a ≤ b))).map
        (fun k => (k,
          seriesSum (estimatedCosts
            (df.filter fun r => decide (r.primary_cpv_name = some k))),
          (df.filter fun r => decide (r.primary_cpv_name = some k)).length))).mergeSort
        (fun a b => decide (b.2.1 ≤ a.2.1))).take 10 := rfl
  rw [hmain]
  set grouped := ((((df.filterMap (·.primary_cpv_name)).dedup).mergeSort
      (fun a b => decide (a ≤ b))).map
    (fun k => (k,
      seriesSum (estimatedCosts
        (df.filter fun r => decide (r.primary_cpv_name = some k))),
      (df.filter fun r => decide (r.primary_cpv_name = some k)).length))) with hgrouped
  refine ⟨List.length_take_le _ _, ?_, ?_⟩
  · have hs : (grouped.mergeSort (fun a b => decide (b.2.1 ≤ a.2.1))).Pairwise
        (fun a b => decide (b.2.1 ≤ a.2.1) = true) :=
      List.sorted_mergeSort
        (fun a b c hab hbc => by
          simp only [decide_eq_true_eq] at *
          exact le_trans hbc hab)
        (fun a b => by rcases le_total b.2.1 a.2.1 with h | h <;> simp [h])
        grouped
    have hp : (grouped.mergeSort (fun a b => decide (b.2.1 ≤ a.2.1))).Pairwise
        (fun a b => b.2.1 ≤ a.2.1) := hs.imp fun h => of_decide_eq_true h
    exact List.Pairwise.sublist (List.take_sublist _ _) hp
  · intro g hg
    have hg1 : g ∈ grouped :=
      ((List.mergeSort_perm grouped _).mem_iff).mp (List.mem_of_mem_take hg)
    obtain ⟨k, hk, rfl⟩ := List.mem_map.mp hg1
    refine ⟨?_, rfl, rfl⟩
    have hk2 : k ∈ (df.filterMap (·.primary_cpv_name)).dedup :=
      ((List.mergeSort_perm _ _).mem_iff).mp hk
    obtain ⟨r, hr, hrk⟩ := List.mem_filterMap.mp (List.mem_dedup.mp hk2)
    exact ⟨r, hr, hrk⟩

/-- C5: counterexample. A table whose single row has a null
`primary_cpv_name` produces an empty category ranking: the null row does not
form a group, it is silently dropped by `groupby`'s default `dropna=True`. -/
theorem claim5_counterexample :
    tNull.map (·.primary_cpv_name) = [none] ∧ topCategories tNull = [] := by
  constructor
  · rfl
  · simp [topCategories, tNull, sampleRowCat]

theorem tCat_topCategories :
    topCategories tCat = [("A", (500 : ℚ), 2), ("B", (100 : ℚ), 1)] := by
  have hmain : topCategories tCat =
      (((((tCat.filterMap (·.primary_cpv_name)).dedup).mergeSort
          (fun a b => decide (a ≤ b))).map
        (fun k => (k,
          seriesSum (estimatedCosts
            (tCat.filter fun r => decide (r.primary_cpv_name = some k))),
          (tCat.filter fun r => decide (r.primary_cpv_name = some k)).length))).mergeSort
        (fun a b => decide (b.2.1 ≤ a.2.1))).take 10 := rfl
  have hkeys : (tCat.filterMap (·.primary_cpv_name)).dedup = ["A", "B"] := by decide
  have hAB : ("A" : String) ≤ "B" := by
    rw [String.le_iff_toList_le]; decide
  have hsorted1 : (["A", "B"] : List String).Pairwise
      (fun a b => decide (a ≤ b) = true) := by
    refine List.Pairwise.cons ?_ (List.pairwise_singleton _ _)
    intro b hb
    rw [List.mem_singleton] at hb
    subst hb
    exact decide_eq_true hAB
  rw [hmain, hkeys, List.mergeSort_of_sorted hsorted1]
  have hfA : tCat.filter (fun r => decide (r.primary_cpv_name = some "A")) =
      [sampleRowCat 1 300 (some "S1") (some "A"), sampleRowCat 2 200 none (some "A")] := by
    decide
  have hfB : tCat.filter (fun r => decide (r.primary_cpv_name = some "B")) =
      [sampleRowCat 3 100 none (some "B")] := by decide
  have hmap : (["A", "B"].map
      (fun k => (k,
        seriesSum (estimatedCosts
          (tCat.filter fun r => decide (r.primary_cpv_name = some k))),
        (tCat.filter fun r => decide (r.primary_cpv_name = some k)).length))) =
      [("A", (500 : ℚ), 2), ("B", (100 : ℚ), 1)] := by
    simp only [List.map_cons, List.map_nil, hfA, hfB]
    norm_num [seriesSum, estimatedCosts, sampleRowCat]
  have hsorted2 : ([("A", (500 : ℚ), 2), ("B", (100 : ℚ), 1)] :
      List (String × ℚ × ℕ)).Pairwise (fun a b => decide (b.2.1 ≤ a.2.1) = true) := by
    decide
  rw [hmap, List.mergeSort_of_sorted hsorted2]
  rfl

/-- C5: witness. The ranking properties instantiated at the concrete table
`tCat`, at its top group ("A", 500, 2). -/
theorem claim5_witness :
    ("A", (500 : ℚ), (2 : ℕ)) ∈ topCategories tCat ∧
      ((∃ r ∈ tCat, r.primary_cpv_name = some "A") ∧
        (500 : ℚ) = seriesSum (estimatedCosts
          (tCat.filter fun r => decide (r.primary_cpv_name = some "A"))) ∧
        (2 : ℕ) = (tCat.filter fun r => decide (r.primary_cpv_name = some "A")).length) :=
  have hmem : ("A", (500 : ℚ), (2 : ℕ)) ∈ topCategories tCat := by
    rw [tCat_topCategories]; decide
  ⟨hmem, (claim5_top_categories tCat).2.2 _ hmem⟩
